import Mathlib

/-!
Verification of the donation-aggregation and choropleth pipeline of
`choropleth_dashboard.py` / `zip_choropleth.py` (the two files are
near-identical in the parts modelled here; line references below name both).

Shallow embedding conventions:
* dataframes are `List`s of structures, one structure per row shape;
* currency amounts and crosswalk ratios are `ℚ` (the float arithmetic the
  claims quantify over is exact on the values involved: sums, divisions,
  comparisons with 0);
* pandas missing values (`NaN` produced by a left merge with no match, or by
  `Series.map` on a key absent from a dict) are `Option.none`;
* `pandas.DataFrame.sort_values(..., kind='quicksort')` (the default used at
  `choropleth_dashboard.py:81`) guarantees only that its output is a
  permutation of its input ordered by the sort key; it is NOT a stable sort,
  so it is embedded as the relation `IsRatioDescSortOf` rather than as a
  function;
* `pd.to_datetime(..., format="%d-%b-%y")` raises on the first unparseable
  entry (default `errors='raise'`), embedded as `Except`.
-/

namespace Donations

/-- One raw row of the FEC donation CSV (`P00000001-ALL.csv`), before any
cleaning: the five columns the pipeline reads. The date is still a string. -/
structure RawRow where
  cand_nm : String
  contbr_st : String
  contbr_zip : String
  contb_receipt_dt : String
  contb_receipt_amt : ℚ
deriving DecidableEq, Repr

/-- One normalized donation row after `load_data`
(`choropleth_dashboard.py:30-48`): the date has been parsed to
(year, month, day). -/
structure Row where
  cand_nm : String
  contbr_st : String
  contbr_zip : String
  contb_receipt_dt : ℕ × ℕ × ℕ
  contb_receipt_amt : ℚ
deriving DecidableEq, Repr

/-- The 50-state code list of `load_data` (`choropleth_dashboard.py:37-42`).
It contains neither "DC" nor any territory code. -/
def stateCodes : List String :=
  ["AL", "AK", "AZ", "AR", "CA", "CO", "CT", "DE", "FL", "GA", "HI", "ID",
   "IL", "IN", "IA", "KS", "KY", "LA", "ME", "MD", "MA", "MI", "MN", "MS",
   "MO", "MT", "NE", "NV", "NH", "NJ", "NM", "NY", "NC", "ND", "OH", "OK",
   "OR", "PA", "RI", "SC", "SD", "TN", "TX", "UT", "VT", "VA", "WA", "WV",
   "WI", "WY"]

/-- The month abbreviations accepted by the strptime directive `%b` in the C
locale, in order. -/
def monthAbbrevs : List String :=
  ["Jan", "Feb", "Mar", "Apr", "May", "Jun",
   "Jul", "Aug", "Sep", "Oct", "Nov", "Dec"]

/-- Gregorian leap-year test, used to validate the day of month exactly as
`datetime.strptime` does. -/
def isLeap (y : ℕ) : Bool :=
  (y % 4 == 0 && y % 100 != 0) || y % 400 == 0

/-- strptime's `%y` century rule: 00-68 map to 2000-2068, 69-99 to
1969-1999. -/
def yearOfTwoDigit (y : ℕ) : ℕ :=
  if y ≤ 68 then 2000 + y else 1900 + y

/-- Number of days of month `m` (1-12) in year `y`. -/
def daysInMonth (y m : ℕ) : ℕ :=
  if m = 2 then (if isLeap y then 29 else 28)
  else if m = 4 ∨ m = 6 ∨ m = 9 ∨ m = 11 then 30
  else 31

/-- Split a character list at every dash, the splitting `strptime` performs
on a `%d-%b-%y` pattern. `acc` holds the current field reversed. -/
def splitDashAux : List Char → List Char → List (List Char)
  | acc, [] => [acc.reverse]
  | acc, c :: rest =>
    if c = '-' then acc.reverse :: splitDashAux [] rest
    else splitDashAux (c :: acc) rest

/-- Read a nonempty all-digit field as a number, as the `%d` / `%y`
directives do; any non-digit makes the field fail to parse. -/
def digitsToNatAux : ℕ → List Char → Option ℕ
  | acc, [] => some acc
  | acc, c :: cs =>
    if c.isDigit then digitsToNatAux (acc * 10 + (c.toNat - 48)) cs else none

/-- `digitsToNatAux` on a nonempty field. -/
def digitsToNat? (cs : List Char) : Option ℕ :=
  match cs with
  | [] => none
  | _ => digitsToNatAux 0 cs

/-- `datetime.strptime(s, "%d-%b-%y")` as used by
`pd.to_datetime(..., format="%d-%b-%y")` (`choropleth_dashboard.py:46`):
a 1-2 digit day, an abbreviated month name, and a 2-digit year, separated by
dashes; the day must exist in the month. Result `(year, month, day)`, or
`none` when the string does not match the format. -/
def parseDate (s : String) : Option (ℕ × ℕ × ℕ) :=
  match splitDashAux [] s.toList with
  | [ds, ms, ys] =>
    match digitsToNat? ds, monthAbbrevs.findIdx? (fun x => x == String.mk ms),
        digitsToNat? ys with
    | some d, some mi, some y =>
      if ds.length ≤ 2 ∧ ys.length = 2 ∧ 1 ≤ d ∧
         d ≤ daysInMonth (yearOfTwoDigit y) (mi + 1) then
        some (yearOfTwoDigit y, mi + 1, d)
      else none
    | _, _, _ => none
  | _ => none

/-- The date-parsing pass of `load_data` (`choropleth_dashboard.py:46`):
`pd.to_datetime` with `errors='raise'` (the default) converts every row's
date or raises on the first row whose date does not match the format. -/
def parseDateRows : List RawRow → Except String (List Row)
  | [] => Except.ok []
  | r :: rest =>
    match parseDate r.contb_receipt_dt with
    | none =>
      Except.error (String.append "time data does not match format %d-%b-%y: "
        r.contb_receipt_dt)
    | some d =>
      match parseDateRows rest with
      | Except.error e => Except.error e
      | Except.ok out =>
        Except.ok ({ cand_nm := r.cand_nm, contbr_st := r.contbr_st,
                     contbr_zip := r.contbr_zip, contb_receipt_dt := d,
                     contb_receipt_amt := r.contb_receipt_amt } :: out)

/-- `load_data` (`choropleth_dashboard.py:30-48`, `zip_choropleth.py:23-36`):
filter to the 50 state codes, parse the receipt date (failure is fatal for
the whole load), then keep strictly positive amounts only. -/
def loadData (raw : List RawRow) : Except String (List Row) :=
  match parseDateRows (raw.filter (fun r => decide (r.contbr_st ∈ stateCodes))) with
  | Except.error e => Except.error e
  | Except.ok rows =>
    Except.ok (rows.filter (fun r => decide (0 < r.contb_receipt_amt)))

/-! ### Geographic Aggregator (Tab 1, `choropleth_dashboard.py:108-109`) -/

/-- The grouping key of the first stage:
`groupby(["contbr_st", "contbr_zip", "cand_nm"])`. -/
def keyOf (r : Row) : String × String × String :=
  (r.contbr_st, r.contbr_zip, r.cand_nm)

/-- Sum of `contb_receipt_amt` over the rows with the given
(state, ZIP, candidate) key. -/
def sumAmtForKey (rows : List Row) (k : String × String × String) : ℚ :=
  ((rows.filter (fun r => decide (keyOf r = k))).map
    (fun r => r.contb_receipt_amt)).sum

/-- Stage 1, `grouped` (`choropleth_dashboard.py:108`): one row per distinct
(state, ZIP, candidate) key, carrying the summed amount. -/
def zipLevelSums (rows : List Row) : List ((String × String × String) × ℚ) :=
  ((rows.map keyOf).dedup).map (fun k => (k, sumAmtForKey rows k))

/-- Stage 2, `state_cand_sums` (`choropleth_dashboard.py:109`): the two-stage
state-level total for one (state, candidate) pair, obtained by summing the
stage-1 rows whose key projects to that pair. -/
def stateCandSumsTwoStage (rows : List Row) (st cn : String) : ℚ :=
  (((zipLevelSums rows).filter
      (fun kv => decide (kv.1.1 = st ∧ kv.1.2.2 = cn))).map
    (fun kv => kv.2)).sum

/-- The single-stage flat `groupby(["contbr_st", "cand_nm"]).sum()` total for
one (state, candidate) pair, the reference the spec compares against. -/
def stateCandSumsFlat (rows : List Row) (st cn : String) : ℚ :=
  ((rows.filter (fun r => decide (r.contbr_st = st ∧ r.cand_nm = cn))).map
    (fun r => r.contb_receipt_amt)).sum

/-! ### Crosswalk Resolver (`choropleth_dashboard.py:69-83`) -/

/-- One raw entry of the HUD ZIP-to-county crosswalk: columns `zip`,
`geoid`, `tot_ratio` after the `astype(str)` casts
(`choropleth_dashboard.py:77-78`). -/
structure CrosswalkEntry where
  zip : String
  geoid : String
  tot_ratio : ℚ
deriving DecidableEq, Repr

/-- The contract of `df.sort_values("tot_ratio", ascending=False)`
(`choropleth_dashboard.py:81`) with the default `kind='quicksort'`: `out` is
some permutation of `raw` that is ordered by `tot_ratio` descending. The
default quicksort is not stable, so the relative order of entries with equal
ratios is not determined; any such permutation is an admissible output. -/
def IsRatioDescSortOf (raw out : List CrosswalkEntry) : Prop :=
  List.Perm raw out ∧
    List.Sorted (fun a b => b.tot_ratio ≤ a.tot_ratio) out

instance (raw out : List CrosswalkEntry) :
    Decidable (IsRatioDescSortOf raw out) := by
  unfold IsRatioDescSortOf; infer_instance

/-- Recursion kernel of `drop_duplicates("zip")`
(`choropleth_dashboard.py:82`, default `keep='first'`): keep an entry iff
its ZIP has not been seen earlier in the list. -/
def dropDupZipAux : List String → List CrosswalkEntry → List CrosswalkEntry
  | _, [] => []
  | seen, e :: rest =>
    if e.zip ∈ seen then dropDupZipAux seen rest
    else e :: dropDupZipAux (e.zip :: seen) rest

/-- `df.drop_duplicates("zip")`: retain the first occurrence of each ZIP, in
order. Applied to the ratio-descending-sorted table by
`load_zip_to_county_crosswalk`. -/
def dropDuplicatesZip (l : List CrosswalkEntry) : List CrosswalkEntry :=
  dropDupZipAux [] l

/-- Python `str.zfill(5)`: left-pad with the digit 0 to width 5. -/
def zfill5 (s : String) : String :=
  String.mk (List.replicate (5 - s.length) '0') ++ s

/-- The ZIP normalization `astype(str).str[:5].str.zfill(5)` applied by the
callers (`choropleth_dashboard.py:267` and `:269`): truncate to the first 5
characters, then left-zero-pad to width 5. -/
def normZip (s : String) : String :=
  zfill5 (s.take 5)

/-- The caller-side normalization of the resolved crosswalk
(`choropleth_dashboard.py:269`): `crosswalk_df["zip"]` is normalized AFTER
deduplication; the `geoid` column is left exactly as `astype(str)` produced
it, with no padding. -/
def normalizeCrosswalkZips (l : List CrosswalkEntry) : List CrosswalkEntry :=
  l.map (fun e => { e with zip := normZip e.zip })

/-! ### Geospatial Join and Metric Engine (`choropleth_dashboard.py:264-326`) -/

/-- One county geometry record: the `GEOID` and `NAMELSAD` properties the
pipeline reads (`choropleth_dashboard.py:284-286`); the polygon itself is
never inspected by the claims. -/
structure County where
  GEOID : String
  NAMELSAD : String
deriving DecidableEq, Repr

/-- The static FIPS-prefix-to-state-name dict `state_fips_map`
(`choropleth_dashboard.py:289-299`), verbatim. -/
def state_fips_map : List (String × String) :=
  [("01", "Alabama"), ("02", "Alaska"), ("04", "Arizona"), ("05", "Arkansas"),
   ("06", "California"), ("08", "Colorado"), ("09", "Connecticut"),
   ("10", "Delaware"), ("11", "District of Columbia"), ("12", "Florida"),
   ("13", "Georgia"), ("15", "Hawaii"), ("16", "Idaho"), ("17", "Illinois"),
   ("18", "Indiana"), ("19", "Iowa"), ("20", "Kansas"), ("21", "Kentucky"),
   ("22", "Louisiana"), ("23", "Maine"), ("24", "Maryland"),
   ("25", "Massachusetts"), ("26", "Michigan"), ("27", "Minnesota"),
   ("28", "Mississippi"), ("29", "Missouri"), ("30", "Montana"),
   ("31", "Nebraska"), ("32", "Nevada"), ("33", "New Hampshire"),
   ("34", "New Jersey"), ("35", "New Mexico"), ("36", "New York"),
   ("37", "North Carolina"), ("38", "North Dakota"), ("39", "Ohio"),
   ("40", "Oklahoma"), ("41", "Oregon"), ("42", "Pennsylvania"),
   ("44", "Rhode Island"), ("45", "South Carolina"), ("46", "South Dakota"),
   ("47", "Tennessee"), ("48", "Texas"), ("49", "Utah"), ("50", "Vermont"),
   ("51", "Virginia"), ("53", "Washington"), ("54", "West Virginia"),
   ("55", "Wisconsin"), ("56", "Wyoming")]

/-- `counties["GEOID"].str[:2].map(state_fips_map)`
(`choropleth_dashboard.py:301`): look the first two characters of the GEOID
up in the fixed table. `pandas.Series.map` on a dict yields the missing
value `NaN` for a key absent from the dict, embedded as `none`. -/
def countyState (geoid : String) : Option String :=
  state_fips_map.lookup (geoid.take 2)

/-- One row of `merged_df` (`choropleth_dashboard.py:278-281`): a donation
with the `geoid` column brought in by the left merge with the crosswalk;
`none` is the `NaN` of a donation whose ZIP has no crosswalk entry. -/
structure MRow where
  cand_nm : String
  contb_receipt_amt : ℚ
  GEOID : Option String
deriving DecidableEq, Repr

/-- The left merge `cf_df.merge(crosswalk_df[["zip", "geoid"]],
left_on="contbr_zip", right_on="zip", how="left")`
(`choropleth_dashboard.py:280`): each donation row is repeated once per
matching crosswalk entry, or kept once with a missing GEOID when no entry
matches. -/
def mergeDonationsCrosswalk (rows : List Row) (cw : List CrosswalkEntry) :
    List MRow :=
  rows.flatMap (fun r =>
    match cw.filter (fun e => decide (e.zip = r.contbr_zip)) with
    | [] => [{ cand_nm := r.cand_nm, contb_receipt_amt := r.contb_receipt_amt,
               GEOID := none }]
    | ms => ms.map (fun e =>
        { cand_nm := r.cand_nm, contb_receipt_amt := r.contb_receipt_amt,
          GEOID := some e.geoid }))

/-- The two designated candidates of share mode
(`choropleth_dashboard.py:319`). -/
def trumpName : String := "Trump, Donald J."

/-- The second designated candidate of share mode. -/
def harrisName : String := "Harris, Kamala"

/-- The candidate filter list of share mode. -/
def twoCands : List String := [trumpName, harrisName]

/-- The share formula with its 0/0 fallback
(`choropleth_dashboard.py:321-322`): `Harris / (Harris + Trump)`, where the
float `0.0/0.0 = NaN` case is immediately replaced by `fillna(0.5)`. (A zero
denominator with a nonzero numerator cannot arise downstream of `load_data`,
whose amounts are strictly positive.) -/
def shareRatio (h t : ℚ) : ℚ :=
  if h + t = 0 then 1 / 2 else h / (h + t)

/-- The rows of `merged_df` that share mode keeps
(`choropleth_dashboard.py:319-320`): candidate in the designated pair, and a
present GEOID (a pandas `groupby` drops rows whose key is `NaN`). -/
def pivotRelevant (merged : List MRow) : List MRow :=
  merged.filter (fun m => decide (m.cand_nm ∈ twoCands) && m.GEOID.isSome)

/-- The candidate columns that `unstack(fill_value=0)`
(`choropleth_dashboard.py:320`) actually creates: the distinct `cand_nm`
values observed among the relevant rows. `fill_value=0` fills missing cells
of existing columns only — a designated candidate with no relevant row gets
no column at all, and line 321's `pivot["Harris, Kamala"]` /
`pivot["Trump, Donald J."]` lookups then raise `KeyError`. -/
def pivotCandCols (merged : List MRow) : List String :=
  ((pivotRelevant merged).map (fun m => m.cand_nm)).dedup

/-- Sum of the relevant donations of one candidate in one county: a cell of
the `unstack(fill_value=0)` pivot, for the case in which the candidate's
column exists (`pivotCandCols`); absent cells of an existing column are the
0 of `fill_value=0`. -/
def candGeoidSum (merged : List MRow) (g cn : String) : ℚ :=
  (((pivotRelevant merged).filter
      (fun m => decide (m.GEOID = some g ∧ m.cand_nm = cn))).map
    (fun m => m.contb_receipt_amt)).sum

/-- The distinct GEOIDs appearing among the relevant rows: the index of the
pivot table. -/
def pivotGeoids (merged : List MRow) : List String :=
  ((pivotRelevant merged).filterMap (fun m => m.GEOID)).dedup

/-- One row of the `pivot` dataframe (`choropleth_dashboard.py:320-322`):
per-county Harris and Trump subtotals and the derived `kamala_ratio`. -/
structure PivotRow where
  GEOID : String
  harris : ℚ
  trump : ℚ
  kamala_ratio : ℚ
deriving DecidableEq, Repr

/-- The `pivot` dataframe of share mode: one row per GEOID with at least one
relevant donation, with `kamala_ratio` already computed and `fillna(0.5)`
applied (`choropleth_dashboard.py:320-322`). This describes the pivot on
the executions that reach past line 321, i.e. when both designated-candidate
columns exist; the `KeyError` raised otherwise is modelled in
`choroplethShare`. -/
def pivotFor (merged : List MRow) : List PivotRow :=
  (pivotGeoids merged).map (fun g =>
    { GEOID := g,
      harris := candGeoidSum merged g harrisName,
      trump := candGeoidSum merged g trumpName,
      kamala_ratio := shareRatio (candGeoidSum merged g harrisName)
        (candGeoidSum merged g trumpName) })

/-- One row of `choropleth_df` in share mode: the county, and the three
pivot columns brought in by `counties.merge(pivot, on="GEOID", how="left")`
(`choropleth_dashboard.py:323`). A county with no pivot row gets `NaN`
(`none`) in all three columns, since `fillna(0.5)` ran before this merge. -/
structure ShareRow where
  county : County
  harris : Option ℚ
  trump : Option ℚ
  kamala_ratio : Option ℚ
deriving DecidableEq, Repr

/-- The rows of share-mode `choropleth_df` (`choropleth_dashboard.py:323`):
left merge from the county geometries into the pivot table. Reached only
when line 321 did not raise (see `choroplethShare`). -/
def choroplethShareRows (counties : List County) (merged : List MRow) :
    List ShareRow :=
  counties.flatMap (fun c =>
    match (pivotFor merged).filter (fun p => decide (p.GEOID = c.GEOID)) with
    | [] => [{ county := c, harris := none, trump := none,
               kamala_ratio := none }]
    | ms => ms.map (fun p =>
        { county := c, harris := some p.harris, trump := some p.trump,
          kamala_ratio := some p.kamala_ratio }))

/-- Share-mode `choropleth_df` (`choropleth_dashboard.py:317-323`) with its
error path: line 321 reads the columns `pivot["Harris, Kamala"]` and
`pivot["Trump, Donald J."]`, in that order; a designated candidate absent
from the relevant rows has no column (`unstack(fill_value=0)` creates only
observed columns), so the first missing lookup raises `KeyError` and share
mode produces no output table at all. -/
def choroplethShare (counties : List County) (merged : List MRow) :
    Except String (List ShareRow) :=
  if harrisName ∈ pivotCandCols merged then
    if trumpName ∈ pivotCandCols merged then
      Except.ok (choroplethShareRows counties merged)
    else Except.error "KeyError: Trump, Donald J."
  else Except.error "KeyError: Harris, Kamala"

/-- The distinct GEOIDs of `merged_df.groupby("GEOID")` in Total mode
(`choropleth_dashboard.py:305`); rows with `NaN` GEOID are dropped by the
groupby. -/
def totalGeoids (merged : List MRow) : List String :=
  (merged.filterMap (fun m => m.GEOID)).dedup

/-- Total donations attributed to one county. -/
def geoidSum (merged : List MRow) (g : String) : ℚ :=
  ((merged.filter (fun m => decide (m.GEOID = some g))).map
    (fun m => m.contb_receipt_amt)).sum

/-- `county_donations` (`choropleth_dashboard.py:305`): one (GEOID, total)
row per county that received at least one crosswalk-matched donation. -/
def county_donations (merged : List MRow) : List (String × ℚ) :=
  (totalGeoids merged).map (fun g => (g, geoidSum merged g))

/-- One row of `choropleth_df` in Total mode: the county and its
`contb_receipt_amt` total after `.fillna(0)`
(`choropleth_dashboard.py:306`). -/
structure TotalRow where
  county : County
  contb_receipt_amt : ℚ
deriving DecidableEq, Repr

/-- Total-mode `choropleth_df` (`choropleth_dashboard.py:305-306`): left
merge from the county geometries into `county_donations`, missing totals
filled with 0. -/
def choroplethTotal (counties : List County) (merged : List MRow) :
    List TotalRow :=
  counties.flatMap (fun c =>
    match (county_donations merged).filter (fun p => decide (p.1 = c.GEOID)) with
    | [] => [{ county := c, contb_receipt_amt := 0 }]
    | ms => ms.map (fun p => { county := c, contb_receipt_amt := p.2 }))

/-- The Total-mode color metric (`choropleth_dashboard.py:309-313`):
`np.where(amt > 0, np.log10(amt + 1), 0)`. -/
noncomputable def log_donations (t : ℚ) : ℝ :=
  if 0 < t then Real.logb 10 ((t : ℝ) + 1) else 0

/-! ### Concrete tables used by witnesses and counterexamples

The numeric `tot_ratio` values below are integer-valued rationals: the
claims only compare ratios, and integer values keep every example
kernel-computable. -/

/-- A raw donation row from Texas with a well-formed date. -/
def rowTX : RawRow :=
  { cand_nm := harrisName, contbr_st := "TX", contbr_zip := "750010000",
    contb_receipt_dt := "05-Jan-24", contb_receipt_amt := 50 }

/-- A raw row from a territory (Puerto Rico) whose date is malformed: the
state filter drops it before the date is ever parsed. -/
def rowPRBad : RawRow :=
  { cand_nm := trumpName, contbr_st := "PR", contbr_zip := "00901",
    contb_receipt_dt := "garbage", contb_receipt_amt := 100 }

/-- A raw refund row (negative amount) with a well-formed date. -/
def rowNeg : RawRow :=
  { cand_nm := trumpName, contbr_st := "TX", contbr_zip := "75001",
    contb_receipt_dt := "06-Feb-24", contb_receipt_amt := -200 }

/-- A small raw table exercising all three `load_data` filters. -/
def rawSample : List RawRow := [rowTX, rowPRBad, rowNeg]

/-- What `load_data` produces on `rawSample`. -/
def loadedSample : List Row :=
  [{ cand_nm := harrisName, contbr_st := "TX", contbr_zip := "750010000",
     contb_receipt_dt := (2024, 1, 5), contb_receipt_amt := 50 }]

/-- A raw table whose only row carries a 50-state code and a date that does
not match the format. -/
def rawBadDateTX : List RawRow :=
  [{ cand_nm := trumpName, contbr_st := "TX", contbr_zip := "75001",
     contb_receipt_dt := "31-Foo-24", contb_receipt_amt := 5 }]

/-- A fetched crosswalk table in which ZIP "75001" appears twice with
distinct ratios, listed unsorted. -/
def cwRawSample : List CrosswalkEntry :=
  [{ zip := "75001", geoid := "48085", tot_ratio := 1 },
   { zip := "75001", geoid := "48113", tot_ratio := 9 },
   { zip := "12345", geoid := "36001", tot_ratio := 3 }]

/-- A ratio-descending reordering of `cwRawSample`. -/
def cwSortedSample : List CrosswalkEntry :=
  [{ zip := "75001", geoid := "48113", tot_ratio := 9 },
   { zip := "12345", geoid := "36001", tot_ratio := 3 },
   { zip := "75001", geoid := "48085", tot_ratio := 1 }]

/-- First-listed of two crosswalk entries that tie on ratio. -/
def entryTieA : CrosswalkEntry :=
  { zip := "11111", geoid := "01001", tot_ratio := 5 }

/-- Second-listed tied entry, mapping the same ZIP to another county. -/
def entryTieB : CrosswalkEntry :=
  { zip := "11111", geoid := "06037", tot_ratio := 5 }

/-- A fetched table with a ratio tie on ZIP "11111". -/
def cwTieRaw : List CrosswalkEntry := [entryTieA, entryTieB]

/-- A descending-sorted permutation of `cwTieRaw` that the unstable default
quicksort is free to produce: the tied entries swapped. -/
def cwTieSwapped : List CrosswalkEntry := [entryTieB, entryTieA]

/-- A fetched table in which a 9-digit ZIP+4 string and the plain 5-digit
ZIP it truncates to appear as distinct raw ZIP keys; already sorted by
ratio descending. -/
def cwZipPlusFour : List CrosswalkEntry :=
  [{ zip := "750011234", geoid := "48113", tot_ratio := 9 },
   { zip := "75001", geoid := "48085", tot_ratio := 3 }]

/-- A county-geometry table with a single county. -/
def countiesAutauga : List County :=
  [{ GEOID := "01001", NAMELSAD := "Autauga County" }]

/-- A merged table whose only donation lies in county 01001 but goes to a
candidate outside the designated pair: neither designated-candidate column
exists, so share mode raises. -/
def mergedThirdParty : List MRow :=
  [{ cand_nm := "Williamson, Marianne", contb_receipt_amt := 25,
     GEOID := some "01001" }]

/-- The share-mode output row for a county absent from the pivot: all three
merged-in columns are the missing value. -/
def shareRowMissing : ShareRow :=
  { county := { GEOID := "01001", NAMELSAD := "Autauga County" },
    harris := none, trump := none, kamala_ratio := none }

/-- Donation rows with both designated candidates in ZIP 75001, so both
pivot columns exist and share mode runs to completion. -/
def rowsBothTX : List Row :=
  [{ cand_nm := harrisName, contbr_st := "TX", contbr_zip := "75001",
     contb_receipt_dt := (2024, 3, 1), contb_receipt_amt := 50 },
   { cand_nm := trumpName, contbr_st := "TX", contbr_zip := "75001",
     contb_receipt_dt := (2024, 3, 1), contb_receipt_amt := 100 }]

/-- Crosswalk for the share-mode examples: 75001 resolves to county
48113. -/
def cwDallas : List CrosswalkEntry :=
  [{ zip := "75001", geoid := "48113", tot_ratio := 9 }]

/-- The Dallas County geometry table. -/
def countiesDallas : List County :=
  [{ GEOID := "48113", NAMELSAD := "Dallas County" }]

/-- A two-county geometry table: 48113 receives both designated candidates'
donations under `rowsBothTX`, 01001 receives none. -/
def countiesTwo : List County :=
  [{ GEOID := "48113", NAMELSAD := "Dallas County" },
   { GEOID := "01001", NAMELSAD := "Autauga County" }]

/-- `rowsBothTX` merged with the crosswalk: both donations resolve to
county 48113. -/
def mergedBothTX : List MRow :=
  mergeDonationsCrosswalk rowsBothTX cwDallas

/-! ## Record Loader lemmas -/

/-- The date-parsing pass does not change the state column of the rows it
converts (and drops no row on success). -/
theorem parseDateRows_ok_states :
    ∀ (l : List RawRow) (out : List Row), parseDateRows l = Except.ok out →
      out.map (fun r => r.contbr_st) = l.map (fun r => r.contbr_st) := by
  intro l
  induction l with
  | nil =>
    intro out h
    simp only [parseDateRows, Except.ok.injEq] at h
    subst h; rfl
  | cons r rest ih =>
    intro out h
    simp only [parseDateRows] at h
    cases hp : parseDate r.contb_receipt_dt with
    | none => rw [hp] at h; simp at h
    | some d =>
      rw [hp] at h
      cases hr : parseDateRows rest with
      | error e => rw [hr] at h; simp at h
      | ok out0 =>
        rw [hr] at h
        simp only [Except.ok.injEq] at h
        subst h
        simp [ih out0 hr]

/-- If some row's date fails to parse, the date-parsing pass fails as a
whole. -/
theorem parseDateRows_error_of_bad :
    ∀ (l : List RawRow), (∃ r ∈ l, parseDate r.contb_receipt_dt = none) →
      ∃ e, parseDateRows l = Except.error e := by
  intro l
  induction l with
  | nil => rintro ⟨r, hr, _⟩; cases hr
  | cons a rest ih =>
    rintro ⟨r, hr, hbad⟩
    rcases List.mem_cons.mp hr with rfl | hmem
    · exact ⟨String.append "time data does not match format %d-%b-%y: "
          r.contb_receipt_dt,
        by unfold parseDateRows; rw [hbad]⟩
    · cases hp : parseDate a.contb_receipt_dt with
      | none =>
        exact ⟨String.append "time data does not match format %d-%b-%y: "
            a.contb_receipt_dt,
          by unfold parseDateRows; rw [hp]⟩
      | some d =>
        obtain ⟨e, he⟩ := ih ⟨r, hmem, hbad⟩
        exact ⟨e, by simp [parseDateRows, hp, he]⟩

/-- C9: on a successful load, every surviving row's state code is one of
the 50 state codes (in particular it is not "DC" nor a territory code,
which are absent from that list), and every surviving amount is strictly
positive. -/
theorem c9_filters_sound (raw : List RawRow) (out : List Row)
    (h : loadData raw = Except.ok out) :
    ∀ r ∈ out, r.contbr_st ∈ stateCodes ∧ r.contbr_st ≠ "DC" ∧
      0 < r.contb_receipt_amt := by
  unfold loadData at h
  cases hp : parseDateRows (raw.filter fun x => decide (x.contbr_st ∈ stateCodes)) with
  | error e => rw [hp] at h; simp at h
  | ok rows =>
    rw [hp] at h
    simp only [Except.ok.injEq] at h
    subst h
    intro r hr
    have hr' := List.mem_filter.mp hr
    have hamt : 0 < r.contb_receipt_amt := by simpa using hr'.2
    have hst : r.contbr_st ∈
        (raw.filter fun x => decide (x.contbr_st ∈ stateCodes)).map
          (fun x => x.contbr_st) := by
      rw [← parseDateRows_ok_states _ _ hp]
      exact List.mem_map_of_mem _ hr'.1
    obtain ⟨r0, hr0mem, hr0eq⟩ := List.mem_map.mp hst
    have hdec := (List.mem_filter.mp hr0mem).2
    have hin : r.contbr_st ∈ stateCodes := by
      rw [← hr0eq]; simpa using hdec
    refine ⟨hin, ?_, hamt⟩
    intro hdc
    rw [hdc] at hin
    exact absurd hin (by decide)

/-- C9 witness: `load_data` on `rawSample` keeps exactly the positive
Texas row, and the theorem's guarantees hold for it. -/
theorem c9_filters_sound_witness :
    loadData rawSample = Except.ok loadedSample ∧
      ∀ r ∈ loadedSample, r.contbr_st ∈ stateCodes ∧ r.contbr_st ≠ "DC" ∧
        0 < r.contb_receipt_amt :=
  ⟨rfl, c9_filters_sound rawSample loadedSample rfl⟩

/-- C8 (amended): a raw row that passes the 50-state filter and whose
receipt date does not parse under the fixed format makes the whole load
fail with an error; such a row is never coerced or dropped. (The claim as
frozen is falsified by `c8_state_filtered_bad_date_not_fatal`: a malformed
date on a row that the state filter already dropped does not fail the
load, because the date conversion runs after the state filter.) -/
theorem c8_bad_date_fatal (raw : List RawRow)
    (h : ∃ r ∈ raw, r.contbr_st ∈ stateCodes ∧
      parseDate r.contb_receipt_dt = none) :
    ∃ e, loadData raw = Except.error e := by
  obtain ⟨r, hmem, hst, hbad⟩ := h
  have hbad' : ∃ r' ∈ raw.filter (fun x => decide (x.contbr_st ∈ stateCodes)),
      parseDate r'.contb_receipt_dt = none :=
    ⟨r, List.mem_filter.mpr ⟨hmem, by simpa using hst⟩, hbad⟩
  obtain ⟨e, he⟩ := parseDateRows_error_of_bad _ hbad'
  exact ⟨e, by simp [loadData, he]⟩

/-- C8 witness: a Texas row with the unparseable date "31-Foo-24" makes the
load fail. -/
theorem c8_bad_date_fatal_witness :
    (∃ r ∈ rawBadDateTX, r.contbr_st ∈ stateCodes ∧
      parseDate r.contb_receipt_dt = none) ∧
      ∃ e, loadData rawBadDateTX = Except.error e :=
  ⟨by decide, c8_bad_date_fatal rawBadDateTX (by decide)⟩

/-- C8 counterexample: `rowPRBad` is a row of the raw table `rawSample`
whose date does not parse, yet the load succeeds — the state filter drops
the row before `pd.to_datetime` runs, so a malformed date on such a row is
not fatal, contradicting the claim's "a row of the raw donation table ...
causes the Record Loader to fail for the entire load". -/
theorem c8_state_filtered_bad_date_not_fatal :
    parseDate rowPRBad.contb_receipt_dt = none ∧ rowPRBad ∈ rawSample ∧
      loadData rawSample = Except.ok loadedSample :=
  ⟨rfl, by decide, rfl⟩

/-! ## State-name derivation (Tab 3) -/

/-- `List.lookup` over an association list either returns a value paired
with the key in the list, or returns `none` while no pair carries the
key. -/
theorem lookup_mem_or_none (l : List (String × String)) (k : String) :
    (∃ v, l.lookup k = some v ∧ (k, v) ∈ l) ∨
      (l.lookup k = none ∧ ∀ p ∈ l, p.1 ≠ k) := by
  induction l with
  | nil => right; exact ⟨rfl, by simp⟩
  | cons a l ih =>
    obtain ⟨a1, a2⟩ := a
    by_cases hk : k = a1
    · left
      subst hk
      exact ⟨a2, by simp [List.lookup], List.mem_cons_self _ _⟩
    · have hb : (k == a1) = false := beq_eq_false_iff_ne.mpr hk
      rcases ih with ⟨v, hv, hmem⟩ | ⟨hn, hall⟩
      · left
        exact ⟨v, by simp [List.lookup, hb, hv], List.mem_cons_of_mem _ hmem⟩
      · right
        refine ⟨by simp [List.lookup, hb, hn], ?_⟩
        intro p hp
        rcases List.mem_cons.mp hp with rfl | hp'
        · simpa using fun h => hk h.symm
        · exact hall p hp'

/-- C7 (amended): the state name of a county is computed by looking up the
first two characters of its GEOID in the fixed `state_fips_map` table; the
derivation is total and never raises, and for a GEOID whose two-character
prefix is not a key of the table the result is the pandas missing value
`NaN` (embedded as `none`) — not a defined "unknown" marker string. -/
theorem c7_state_name_total_lookup (g : String) :
    (∃ s, countyState g = some s ∧ (g.take 2, s) ∈ state_fips_map) ∨
      (countyState g = none ∧ ∀ p ∈ state_fips_map, p.1 ≠ g.take 2) :=
  lookup_mem_or_none state_fips_map (g.take 2)

/-- C7 counterexample: GEOID "60010" (American Samoa's territory prefix
"60" is not a key of `state_fips_map`) gets the missing value, not an
explicit "unknown" marker string, contradicting the claim's "the state name
is an explicit unknown marker ... never yields an undefined value". -/
theorem c7_unmapped_prefix_is_missing : countyState "60010" = none := by
  decide

/-! ## Crosswalk Resolver lemmas -/

/-- Entries kept by the deduplication kernel come from its input. -/
theorem mem_of_mem_dropDupZipAux :
    ∀ (seen : List String) (l : List CrosswalkEntry) (e : CrosswalkEntry),
      e ∈ dropDupZipAux seen l → e ∈ l := by
  intro seen l
  induction l generalizing seen with
  | nil => intro e h; cases h
  | cons a rest ih =>
    intro e h
    simp only [dropDupZipAux] at h
    by_cases ha : a.zip ∈ seen
    · rw [if_pos ha] at h
      exact List.mem_cons_of_mem _ (ih seen e h)
    · rw [if_neg ha] at h
      rcases List.mem_cons.mp h with rfl | h'
      · exact List.mem_cons_self _ _
      · exact List.mem_cons_of_mem _ (ih _ e h')

/-- A ZIP already recorded as seen is filtered out entirely by the
deduplication kernel. -/
theorem dropDupZipAux_filter_seen :
    ∀ (l : List CrosswalkEntry) (seen : List String) (z : String), z ∈ seen →
      (dropDupZipAux seen l).filter (fun x => decide (x.zip = z)) = [] := by
  intro l
  induction l with
  | nil => intros; rfl
  | cons a rest ih =>
    intro seen z hz
    simp only [dropDupZipAux]
    by_cases ha : a.zip ∈ seen
    · rw [if_pos ha]
      exact ih seen z hz
    · rw [if_neg ha]
      have hne : (decide (a.zip = z)) = false :=
        decide_eq_false (fun h => ha (h ▸ hz))
      rw [List.filter_cons, hne]
      simp only [Bool.false_eq_true, if_false]
      exact ih _ z (List.mem_cons_of_mem _ hz)

/-- With the ZIP not yet seen, the deduplicated table's entries for that
ZIP are exactly the first input entry carrying it (if any). -/
theorem dropDupZipAux_filter_not_seen :
    ∀ (l : List CrosswalkEntry) (seen : List String) (z : String), z ∉ seen →
      (dropDupZipAux seen l).filter (fun x => decide (x.zip = z)) =
        (l.find? (fun x => decide (x.zip = z))).toList := by
  intro l
  induction l with
  | nil => intros; rfl
  | cons a rest ih =>
    intro seen z hz
    simp only [dropDupZipAux]
    by_cases ha : a.zip ∈ seen
    · rw [if_pos ha]
      have hne : (decide (a.zip = z)) = false :=
        decide_eq_false (fun h => hz (h ▸ ha))
      rw [ih seen z hz, List.find?_cons, hne]
    · rw [if_neg ha]
      by_cases haz : a.zip = z
      · subst haz
        have hd : (decide (a.zip = a.zip)) = true := by simp
        rw [List.filter_cons, hd]
        simp only [if_true]
        rw [dropDupZipAux_filter_seen rest (a.zip :: seen) a.zip
            (List.mem_cons_self _ _)]
        rw [List.find?_cons, hd]
        rfl
      · have hdec : (decide (a.zip = z)) = false := decide_eq_false haz
        rw [List.filter_cons, hdec]
        simp only [Bool.false_eq_true, if_false]
        have hz' : z ∉ a.zip :: seen := by
          intro h
          rcases List.mem_cons.mp h with h' | h'
          · exact haz h'.symm
          · exact hz h'
        rw [ih _ z hz', List.find?_cons, hdec]

/-- In a ratio-descending-sorted table, the first entry matching a
predicate has a ratio at least that of every matching entry. -/
theorem find?_ratio_max_of_sorted :
    ∀ (l : List CrosswalkEntry),
      List.Sorted (fun a b => b.tot_ratio ≤ a.tot_ratio) l →
      ∀ (p : CrosswalkEntry → Bool) (e : CrosswalkEntry), l.find? p = some e →
        ∀ x ∈ l, p x = true → x.tot_ratio ≤ e.tot_ratio := by
  intro l
  induction l with
  | nil => intro _ p e h; simp at h
  | cons a rest ih =>
    intro hs p e hf x hx hpx
    have hs' := List.sorted_cons.mp hs
    by_cases hpa : p a = true
    · rw [List.find?_cons, hpa] at hf
      simp only [Option.some.injEq] at hf
      subst hf
      rcases List.mem_cons.mp hx with rfl | hx'
      · exact le_refl _
      · exact hs'.1 x hx'
    · have hpa' : p a = false := by simpa using hpa
      rw [List.find?_cons, hpa'] at hf
      rcases List.mem_cons.mp hx with rfl | hx'
      · exact absurd hpx hpa
      · exact ih hs'.2 p e hf x hx' hpx

/-- `find?` returns the head of the filtered list. -/
theorem find?_eq_head?_filter {α : Type} :
    ∀ (l : List α) (p : α → Bool), l.find? p = (l.filter p).head? := by
  intro l p
  induction l with
  | nil => rfl
  | cons a rest ih =>
    by_cases hpa : p a = true
    · rw [List.find?_cons, hpa, List.filter_cons, hpa]
      rfl
    · have hpa' : p a = false := by simpa using hpa
      rw [List.find?_cons, hpa', List.filter_cons, hpa']
      simp only [Bool.false_eq_true, if_false]
      exact ih

/-- C2: for any admissible output of the descending ratio sort, the
deduplicated crosswalk holds exactly one entry for each ZIP present in the
raw table, that entry is one of the raw entries for the ZIP, and its ratio
is the maximum ratio among all raw entries for the ZIP. -/
theorem c2_crosswalk_dedup_unique_max (raw out : List CrosswalkEntry)
    (h : IsRatioDescSortOf raw out) (z : String)
    (hz : z ∈ raw.map (fun e => e.zip)) :
    ∃ e, (dropDuplicatesZip out).filter (fun x => decide (x.zip = z)) = [e] ∧
      e ∈ raw ∧ e.zip = z ∧
      ∀ x ∈ raw, x.zip = z → x.tot_ratio ≤ e.tot_ratio := by
  obtain ⟨hperm, hsort⟩ := h
  have hz' : z ∈ out.map (fun e => e.zip) := (hperm.map _).mem_iff.mp hz
  obtain ⟨e0, he0mem, he0z⟩ := List.mem_map.mp hz'
  have hsome : (out.find? (fun x => decide (x.zip = z))).isSome := by
    rw [List.find?_isSome]
    exact ⟨e0, he0mem, by simp [he0z]⟩
  obtain ⟨e, he⟩ := Option.isSome_iff_exists.mp hsome
  have hez : e.zip = z := by simpa using List.find?_some he
  have hemem : e ∈ out := List.mem_of_find?_eq_some he
  refine ⟨e, ?_, hperm.mem_iff.mpr hemem, hez, ?_⟩
  · rw [dropDuplicatesZip,
      dropDupZipAux_filter_not_seen out [] z (by simp), he]
    rfl
  · intro x hx hxz
    exact find?_ratio_max_of_sorted out hsort _ e he x (hperm.mem_iff.mp hx)
      (by simp [hxz])

/-- C2 witness: on the concrete fetched table `cwRawSample` with its
sorted permutation `cwSortedSample`, ZIP "75001" resolves to a unique,
maximum-ratio entry. -/
theorem c2_crosswalk_dedup_unique_max_witness :
    IsRatioDescSortOf cwRawSample cwSortedSample ∧
      "75001" ∈ cwRawSample.map (fun e => e.zip) ∧
      ∃ e, (dropDuplicatesZip cwSortedSample).filter
          (fun x => decide (x.zip = "75001")) = [e] ∧
        e ∈ cwRawSample ∧ e.zip = "75001" ∧
        ∀ x ∈ cwRawSample, x.zip = "75001" → x.tot_ratio ≤ e.tot_ratio :=
  ⟨by decide, by decide,
    c2_crosswalk_dedup_unique_max cwRawSample cwSortedSample (by decide)
      "75001" (by decide)⟩

/-- C3 (amended): for every admissible output of the (unstable) descending
sort, the entry the resolver retains for a ZIP is one of the raw entries
for that ZIP attaining the maximum ratio — but which of several tied
maximum entries is retained is not determined by the code, since
`sort_values` uses the unstable default quicksort and may reorder equal
ratios (see the counterexample `c3_unstable_tie_counterexample`). -/
theorem c3_retained_is_some_max (raw out : List CrosswalkEntry)
    (h : IsRatioDescSortOf raw out) (z : String) (e : CrosswalkEntry)
    (he : (dropDuplicatesZip out).find? (fun x => decide (x.zip = z)) =
      some e) :
    e ∈ raw ∧ e.zip = z ∧
      ∀ x ∈ raw, x.zip = z → x.tot_ratio ≤ e.tot_ratio := by
  obtain ⟨hperm, hsort⟩ := h
  have hfind : out.find? (fun x => decide (x.zip = z)) = some e := by
    have h1 := find?_eq_head?_filter (dropDuplicatesZip out)
      (fun x => decide (x.zip = z))
    rw [he, dropDuplicatesZip,
      dropDupZipAux_filter_not_seen out [] z (by simp)] at h1
    cases hfo : out.find? (fun x => decide (x.zip = z)) with
    | none => rw [hfo] at h1; simp at h1
    | some e' =>
      rw [hfo] at h1
      simp only [Option.toList, List.head?, Option.some.injEq] at h1
      exact congrArg some h1.symm
  have hez : e.zip = z := by simpa using List.find?_some hfind
  have hemem : e ∈ out := List.mem_of_find?_eq_some hfind
  refine ⟨hperm.mem_iff.mpr hemem, hez, ?_⟩
  intro x hx hxz
  exact find?_ratio_max_of_sorted out hsort _ e hfind x
    (hperm.mem_iff.mp hx) (by simp [hxz])

/-- C3 (amended) witness: on the tied table, the retained entry for ZIP
"11111" is a maximum-ratio raw entry. -/
theorem c3_retained_is_some_max_witness :
    IsRatioDescSortOf cwTieRaw cwTieSwapped ∧
      (dropDuplicatesZip cwTieSwapped).find?
          (fun x => decide (x.zip = "11111")) = some entryTieB ∧
      (entryTieB ∈ cwTieRaw ∧ entryTieB.zip = "11111" ∧
        ∀ x ∈ cwTieRaw, x.zip = "11111" →
          x.tot_ratio ≤ entryTieB.tot_ratio) :=
  ⟨by decide, by decide,
    c3_retained_is_some_max cwTieRaw cwTieSwapped (by decide) "11111"
      entryTieB (by decide)⟩

/-- C3 counterexample: `cwTieRaw` lists `entryTieA` before `entryTieB`,
both with the maximum ratio for ZIP "11111"; `cwTieSwapped` is an
admissible output of the unstable descending sort, and deduplicating it
retains `entryTieB`, not the first-seen `entryTieA` — so the code does not
realize the claimed stable-sort, first-seen tie-breaking. -/
theorem c3_unstable_tie_counterexample :
    IsRatioDescSortOf cwTieRaw cwTieSwapped ∧
      cwTieRaw.find? (fun x => decide (x.zip = "11111")) = some entryTieA ∧
      dropDuplicatesZip cwTieSwapped = [entryTieB] ∧
      entryTieA ≠ entryTieB := by
  decide

/-- C10: crosswalk deduplication runs on the raw ZIP strings, and the
5-digit truncate-and-pad normalization only afterwards (with the GEOID
column never padded: `normalizeCrosswalkZips` maps every GEOID to itself).
On the fetched table `cwZipPlusFour` — itself an admissible sort output —
the ZIP+4 string "750011234" and the plain "75001" both survive
deduplication and then normalize to the same 5-digit ZIP, so the
normalized crosswalk used for the donation join has two entries for ZIP
"75001". -/
theorem c10_dedup_before_normalization :
    (∀ l : List CrosswalkEntry,
      (normalizeCrosswalkZips l).map (fun e => e.geoid) =
        l.map (fun e => e.geoid)) ∧
      IsRatioDescSortOf cwZipPlusFour cwZipPlusFour ∧
      (dropDuplicatesZip cwZipPlusFour).length = 2 ∧
      ¬ ((normalizeCrosswalkZips (dropDuplicatesZip cwZipPlusFour)).map
          (fun e => e.zip)).Nodup := by
  refine ⟨?_, by decide, by decide, by decide⟩
  intro l
  rw [normalizeCrosswalkZips, List.map_map]
  rfl

/-! ## Geographic Aggregator lemmas -/

/-- Summing a pointwise sum of two functions over a list splits into two
sums. -/
theorem sum_map_add_distrib {κ : Type} :
    ∀ (L : List κ) (f g : κ → ℚ),
      (L.map (fun k => f k + g k)).sum = (L.map f).sum + (L.map g).sum := by
  intro L f g
  induction L with
  | nil => simp
  | cons a rest ih =>
    simp only [List.map_cons, List.sum_cons, ih]
    ring

/-- Summing a one-point indicator over a duplicate-free list picks out the
point when present. -/
theorem sum_map_ite_eq {κ : Type} [DecidableEq κ] :
    ∀ (K : List κ), K.Nodup → ∀ (x : κ) (c : ℚ),
      (K.map (fun k => if x = k then c else 0)).sum =
        if x ∈ K then c else 0 := by
  intro K
  induction K with
  | nil => intro _ x c; simp
  | cons a rest ih =>
    intro hnd x c
    have hnd' := List.nodup_cons.mp hnd
    by_cases hxa : x = a
    · subst hxa
      simp only [List.map_cons, List.sum_cons, if_pos rfl]
      rw [ih hnd'.2 x c, if_neg hnd'.1]
      simp
    · simp only [List.map_cons, List.sum_cons, if_neg hxa]
      rw [ih hnd'.2 x c]
      by_cases hxr : x ∈ rest
      · simp [hxr, List.mem_cons, hxa]
      · simp [hxr, List.mem_cons, hxa]

/-- Partition lemma: summing the per-key totals over any duplicate-free key
list covering the rows equals summing the row amounts directly, for any
key predicate. -/
theorem filter_key_sum_partition :
    ∀ (rows : List Row) (K : List (String × String × String)), K.Nodup →
      (∀ r ∈ rows, keyOf r ∈ K) →
      ∀ (p : (String × String × String) → Bool),
      ((K.filter p).map (fun k => sumAmtForKey rows k)).sum =
        ((rows.filter (fun r => p (keyOf r))).map
          (fun r => r.contb_receipt_amt)).sum := by
  intro rows
  induction rows with
  | nil =>
    intro K hnd hcov p
    simp [sumAmtForKey]
  | cons r rest ih =>
    intro K hnd hcov p
    have hcov' : ∀ x ∈ rest, keyOf x ∈ K := fun x hx =>
      hcov x (List.mem_cons_of_mem _ hx)
    have hpt : ∀ k, sumAmtForKey (r :: rest) k =
        (if keyOf r = k then r.contb_receipt_amt else 0) +
          sumAmtForKey rest k := by
      intro k
      unfold sumAmtForKey
      rw [List.filter_cons]
      by_cases hk : keyOf r = k
      · simp [hk]
      · simp [hk]
    calc ((K.filter p).map (fun k => sumAmtForKey (r :: rest) k)).sum
        = ((K.filter p).map (fun k =>
            (if keyOf r = k then r.contb_receipt_amt else 0) +
              sumAmtForKey rest k)).sum := by
          exact congrArg List.sum (List.map_congr_left (fun k _ => hpt k))
      _ = ((K.filter p).map
              (fun k => if keyOf r = k then r.contb_receipt_amt else 0)).sum +
            ((K.filter p).map (fun k => sumAmtForKey rest k)).sum :=
          sum_map_add_distrib _ _ _
      _ = (((r :: rest).filter (fun x => p (keyOf x))).map
            (fun x => x.contb_receipt_amt)).sum := by
          rw [sum_map_ite_eq (K.filter p) (List.Nodup.filter _ hnd),
            ih K hnd hcov' p, List.filter_cons]
          have hmemK : keyOf r ∈ K := hcov r (List.mem_cons_self _ _)
          by_cases hp : p (keyOf r) = true
          · have hmem : keyOf r ∈ K.filter p :=
              List.mem_filter.mpr ⟨hmemK, hp⟩
            rw [if_pos hmem, hp]
            simp
          · have hmem : keyOf r ∉ K.filter p := fun hmem =>
              hp (List.mem_filter.mp hmem).2
            have hp' : p (keyOf r) = false := by simpa using hp
            rw [if_neg hmem, hp']
            simp

/-- C4: for every normalized donation table and every (state, candidate)
pair, the two-stage aggregation — group by (state, ZIP, candidate) and
sum, then group the intermediate rows by (state, candidate) and sum —
yields the same total as the single-stage flat group-by sum. -/
theorem c4_two_stage_equals_flat (rows : List Row) (st cn : String) :
    stateCandSumsTwoStage rows st cn = stateCandSumsFlat rows st cn := by
  unfold stateCandSumsTwoStage stateCandSumsFlat zipLevelSums
  rw [List.filter_map, List.map_map]
  have hK : ((rows.map keyOf).dedup).Nodup := List.nodup_dedup _
  have hcov : ∀ r ∈ rows, keyOf r ∈ (rows.map keyOf).dedup := fun r hr =>
    List.mem_dedup.mpr (List.mem_map_of_mem _ hr)
  exact filter_key_sum_partition rows ((rows.map keyOf).dedup) hK hcov
    (fun k => decide (k.1 = st ∧ k.2.2 = cn))

/-! ## Metric engine: log metric (C5) -/

/-- C5: in Total mode the computed log metric equals `log10(t + 1)` for a
positive total and `0` for a zero total; over all totals `t ≥ 0` it is
nonnegative (and a real number, hence finite), vanishes exactly at `t = 0`,
and is strictly increasing on positive totals. -/
theorem c5_log_metric (t u : ℚ) (ht : 0 ≤ t) :
    (t = 0 → log_donations t = 0) ∧
      (0 < t → log_donations t = Real.logb 10 ((t : ℝ) + 1)) ∧
      0 ≤ log_donations t ∧
      (log_donations t = 0 ↔ t = 0) ∧
      (0 < t → t < u → log_donations t < log_donations u) := by
  refine ⟨?_, ?_, ?_, ⟨?_, ?_⟩, ?_⟩
  · intro h
    subst h
    simp [log_donations]
  · intro h
    simp only [log_donations, if_pos h]
  · simp only [log_donations]
    by_cases h : 0 < t
    · rw [if_pos h]
      apply Real.logb_nonneg (by norm_num)
      have h' : (0 : ℝ) < (t : ℝ) := by exact_mod_cast h
      linarith
    · rw [if_neg h]
  · intro h0
    by_contra hne
    have hpos : 0 < t := lt_of_le_of_ne ht (Ne.symm hne)
    simp only [log_donations, if_pos hpos] at h0
    have h1 : (1 : ℝ) < (t : ℝ) + 1 := by
      have h' : (0 : ℝ) < (t : ℝ) := by exact_mod_cast hpos
      linarith
    have h2 := Real.logb_pos (by norm_num : (1 : ℝ) < 10) h1
    linarith
  · intro h
    subst h
    simp [log_donations]
  · intro hpos hlt
    have hu : 0 < u := lt_trans hpos hlt
    simp only [log_donations, if_pos hpos, if_pos hu]
    apply Real.logb_lt_logb (by norm_num : (1 : ℝ) < 10)
    · have h' : (0 : ℝ) < (t : ℝ) := by exact_mod_cast hpos
      linarith
    · have h' : (t : ℝ) < (u : ℝ) := by exact_mod_cast hlt
      linarith

/-- C5 witness: the log-metric guarantees at the totals 1 and 2. -/
theorem c5_log_metric_witness :
    (0 : ℚ) ≤ 1 ∧
      (((1 : ℚ) = 0 → log_donations 1 = 0) ∧
        (0 < (1 : ℚ) → log_donations 1 = Real.logb 10 (((1 : ℚ) : ℝ) + 1)) ∧
        0 ≤ log_donations 1 ∧
        (log_donations 1 = 0 ↔ (1 : ℚ) = 0) ∧
        (0 < (1 : ℚ) → (1 : ℚ) < 2 → log_donations 1 < log_donations 2)) :=
  ⟨by decide, c5_log_metric 1 2 (by decide)⟩

/-! ## Metric engine: geometry completeness (C6) -/

/-- A list whose keys are duplicate-free matches each key value with at
most one element. -/
theorem filter_by_key_nil_or_singleton {β : Type} (keyb : β → String) :
    ∀ (l : List β), (l.map keyb).Nodup → ∀ g : String,
      l.filter (fun b => decide (keyb b = g)) = [] ∨
        ∃ b, l.filter (fun b => decide (keyb b = g)) = [b] := by
  intro l
  induction l with
  | nil => intro _ g; left; rfl
  | cons a rest ih =>
    intro hnd g
    have hnd' : (∀ x ∈ rest, ¬ keyb x = keyb a) ∧ (rest.map keyb).Nodup := by
      simpa using hnd
    rw [List.filter_cons]
    by_cases ha : keyb a = g
    · have hd : (decide (keyb a = g)) = true := decide_eq_true ha
      rw [hd]
      simp only [if_true]
      right
      refine ⟨a, ?_⟩
      have hrest : rest.filter (fun b => decide (keyb b = g)) = [] := by
        rw [List.filter_eq_nil_iff]
        intro b hb hdb
        have hbg : keyb b = g := of_decide_eq_true hdb
        exact hnd'.1 b hb (hbg.trans ha.symm)
      rw [hrest]
    · have hd : (decide (keyb a = g)) = false := decide_eq_false ha
      rw [hd]
      simp only [Bool.false_eq_true, if_false]
      exact ih hnd'.2 g

/-- Mapping a projection over a flatMap whose branches each project to the
single input element recovers the input list. -/
theorem flatMap_proj {γ : Type} (f : County → List γ) (proj : γ → County) :
    ∀ (counties : List County), (∀ c ∈ counties, (f c).map proj = [c]) →
      (counties.flatMap f).map proj = counties := by
  intro counties
  induction counties with
  | nil => intro _; rfl
  | cons c rest ih =>
    intro h
    rw [List.flatMap_cons, List.map_append, h c (List.mem_cons_self _ _),
      ih (fun x hx => h x (List.mem_cons_of_mem _ hx))]
    rfl

/-- The Total-mode per-county table keys each GEOID exactly once. -/
theorem county_donations_keys_nodup (merged : List MRow) :
    ((county_donations merged).map (fun p => p.1)).Nodup := by
  rw [county_donations, List.map_map]
  show ((totalGeoids merged).map (fun g => g)).Nodup
  rw [List.map_id']
  exact List.nodup_dedup _

/-- The share-mode pivot's GEOID column is exactly the pivot index. -/
theorem pivotFor_map_geoid (merged : List MRow) :
    (pivotFor merged).map (fun p => p.GEOID) = pivotGeoids merged := by
  rw [pivotFor, List.map_map]
  show (pivotGeoids merged).map (fun g => g) = pivotGeoids merged
  exact List.map_id' _

/-- The share-mode pivot keys each GEOID exactly once. -/
theorem pivotFor_keys_nodup (merged : List MRow) :
    ((pivotFor merged).map (fun p => p.GEOID)).Nodup := by
  rw [pivotFor_map_geoid]
  exact List.nodup_dedup _

/-- C6 (amended): in Total mode every county geometry appears in the
output exactly once regardless of donation activity — the rows project
back onto the input geometry list and the lengths agree. In share mode the
same holds for every output table the pipeline actually produces; but when
either designated candidate is absent from the crosswalk-matched donations
the pipeline raises `KeyError` at line 321 and produces no output table at
all (counterexample `c6_share_mode_keyerror`), so share-mode completeness
is NOT unconditional in donation activity. -/
theorem c6_geometry_complete (counties : List County) (merged : List MRow) :
    ((choroplethTotal counties merged).map (fun row => row.county) =
        counties ∧
      (choroplethTotal counties merged).length = counties.length) ∧
    ∀ outS, choroplethShare counties merged = Except.ok outS →
      outS.map (fun row => row.county) = counties ∧
      outS.length = counties.length := by
  have htot : (choroplethTotal counties merged).map (fun row => row.county) =
      counties := by
    rw [choroplethTotal]
    apply flatMap_proj
    intro c _
    rcases filter_by_key_nil_or_singleton (fun p => p.1)
        (county_donations merged) (county_donations_keys_nodup merged)
        c.GEOID with hnil | ⟨b, hb⟩
    · rw [hnil]
      rfl
    · rw [hb]
      rfl
  have hshare : (choroplethShareRows counties merged).map
      (fun row => row.county) = counties := by
    rw [choroplethShareRows]
    apply flatMap_proj
    intro c _
    rcases filter_by_key_nil_or_singleton (fun p => p.GEOID)
        (pivotFor merged) (pivotFor_keys_nodup merged)
        c.GEOID with hnil | ⟨b, hb⟩
    · rw [hnil]
      rfl
    · rw [hb]
      rfl
  refine ⟨⟨htot, by simpa using congrArg List.length htot⟩, ?_⟩
  intro outS hok
  have houtS : outS = choroplethShareRows counties merged := by
    unfold choroplethShare at hok
    by_cases hH : harrisName ∈ pivotCandCols merged
    · rw [if_pos hH] at hok
      by_cases hT : trumpName ∈ pivotCandCols merged
      · rw [if_pos hT] at hok
        simp only [Except.ok.injEq] at hok
        exact hok.symm
      · rw [if_neg hT] at hok
        simp at hok
    · rw [if_neg hH] at hok
      simp at hok
  subst houtS
  exact ⟨hshare, by simpa using congrArg List.length hshare⟩

/-- C6 witness: at a concrete input with both designated candidates
present, share mode succeeds and both modes carry the two county
geometries through exactly once. -/
theorem c6_geometry_complete_witness :
    choroplethShare countiesTwo mergedBothTX =
        Except.ok (choroplethShareRows countiesTwo mergedBothTX) ∧
      ((choroplethTotal countiesTwo mergedBothTX).map
          (fun row => row.county) = countiesTwo ∧
        (choroplethTotal countiesTwo mergedBothTX).length =
          countiesTwo.length) ∧
      ((choroplethShareRows countiesTwo mergedBothTX).map
          (fun row => row.county) = countiesTwo ∧
        (choroplethShareRows countiesTwo mergedBothTX).length =
          countiesTwo.length) :=
  ⟨rfl, (c6_geometry_complete countiesTwo mergedBothTX).1,
    (c6_geometry_complete countiesTwo mergedBothTX).2 _ rfl⟩

/-- C6 counterexample: a county geometry is present, but the only matched
donation goes to a candidate outside the designated pair, so neither
designated-candidate column exists; share mode raises `KeyError` (on the
first lookup, `pivot["Harris, Kamala"]`) and emits no output table — there
is no row for the county at all, refuting "every county geometry appears
in the output exactly once regardless of donation activity". -/
theorem c6_share_mode_keyerror :
    countiesAutauga.length = 1 ∧
      choroplethShare countiesAutauga mergedThirdParty =
        Except.error "KeyError: Harris, Kamala" :=
  ⟨rfl, rfl⟩

/-! ## Metric engine: share ratio (C1) -/

/-- The donation-to-crosswalk left merge copies each donation's amount, so
it preserves positivity of amounts. -/
theorem merge_preserves_pos (rows : List Row) (cw : List CrosswalkEntry)
    (hpos : ∀ r ∈ rows, 0 < r.contb_receipt_amt) :
    ∀ m ∈ mergeDonationsCrosswalk rows cw, 0 < m.contb_receipt_amt := by
  intro m hm
  rw [mergeDonationsCrosswalk] at hm
  obtain ⟨r, hr, hmr⟩ := List.mem_flatMap.mp hm
  cases hc : cw.filter (fun e => decide (e.zip = r.contbr_zip)) with
  | nil =>
    rw [hc] at hmr
    have : m =
        { cand_nm := r.cand_nm, contb_receipt_amt := r.contb_receipt_amt,
          GEOID := none } := by
      simpa using hmr
    rw [this]
    exact hpos r hr
  | cons e es =>
    rw [hc] at hmr
    obtain ⟨e', _, hme⟩ := List.mem_map.mp hmr
    rw [← hme]
    exact hpos r hr

/-- A GEOID indexes the share-mode pivot exactly when some merged row
carries it together with one of the two designated candidates. -/
theorem mem_pivotGeoids_iff (merged : List MRow) (g : String) :
    g ∈ pivotGeoids merged ↔
      ∃ m ∈ merged, m.GEOID = some g ∧ m.cand_nm ∈ twoCands := by
  rw [pivotGeoids, List.mem_dedup, List.mem_filterMap]
  constructor
  · rintro ⟨m, hm, hg⟩
    have hm' := List.mem_filter.mp hm
    have h2 := hm'.2
    rw [Bool.and_eq_true] at h2
    exact ⟨m, hm'.1, hg, of_decide_eq_true h2.1⟩
  · rintro ⟨m, hm, hg, hc⟩
    refine ⟨m, List.mem_filter.mpr ⟨hm, ?_⟩, hg⟩
    rw [Bool.and_eq_true]
    exact ⟨decide_eq_true hc, by rw [hg]; rfl⟩

/-- C1 (amended): share mode computes an output table only when both
designated candidates appear among the crosswalk-matched donations
(otherwise line 321 raises `KeyError`). On that table, a county row whose
GEOID received at least one donation to a designated candidate carries
defined subtotals `some h`, `some t` with `h + t > 0`, and its ratio
equals `some (h / (h + t))` — in particular `some 1` when only Harris
donated in the county and `some 0` when only Trump did, never NaN for
these rows (the pivot's `fillna(0.5)` branch is unreachable downstream of
`load_data` because all amounts are positive). A county with zero
donations to the two designated candidates instead carries the missing
value NaN (`none`) in all three merged columns — not 0.5 — because
`fillna(0.5)` runs on the pivot before the left merge onto the geometry
(counterexample `c1_zero_pair_county_ratio_is_nan`). -/
theorem c1_share_ratio (rows : List Row) (cw : List CrosswalkEntry)
    (counties : List County)
    (hpos : ∀ r ∈ rows, 0 < r.contb_receipt_amt)
    (hH : harrisName ∈ pivotCandCols (mergeDonationsCrosswalk rows cw))
    (hT : trumpName ∈ pivotCandCols (mergeDonationsCrosswalk rows cw)) :
    choroplethShare counties (mergeDonationsCrosswalk rows cw) =
      Except.ok
        (choroplethShareRows counties (mergeDonationsCrosswalk rows cw)) ∧
    ∀ row ∈ choroplethShareRows counties (mergeDonationsCrosswalk rows cw),
      (∃ h t, row.harris = some h ∧ row.trump = some t ∧ 0 ≤ h ∧ 0 ≤ t ∧
        0 < h + t ∧ row.kamala_ratio = some (h / (h + t)) ∧
        (t = 0 → row.kamala_ratio = some 1) ∧
        (h = 0 → row.kamala_ratio = some 0)) ∨
      (row.harris = none ∧ row.trump = none ∧ row.kamala_ratio = none ∧
        ∀ m ∈ mergeDonationsCrosswalk rows cw,
          m.GEOID = some row.county.GEOID → m.cand_nm ∉ twoCands) := by
  have hmpos : ∀ m ∈ mergeDonationsCrosswalk rows cw,
      0 < m.contb_receipt_amt := merge_preserves_pos rows cw hpos
  set merged := mergeDonationsCrosswalk rows cw with hmerged
  have hsub : ∀ m' ∈ pivotRelevant merged, 0 < m'.contb_receipt_amt :=
    fun m' hm' => hmpos m' (List.mem_filter.mp hm').1
  have hcellnn : ∀ (g cn : String), 0 ≤ candGeoidSum merged g cn := by
    intro g cn
    apply List.sum_nonneg
    intro x hx
    obtain ⟨m', hm', hxeq⟩ := List.mem_map.mp hx
    exact le_of_lt (hxeq ▸ hsub m' (List.mem_filter.mp hm').1)
  constructor
  · unfold choroplethShare
    rw [if_pos hH, if_pos hT]
  intro row hrow
  rw [choroplethShareRows] at hrow
  obtain ⟨c, _, hin⟩ := List.mem_flatMap.mp hrow
  cases hflt : (pivotFor merged).filter
      (fun p => decide (p.GEOID = c.GEOID)) with
  | nil =>
    rw [hflt] at hin
    have hrow' : row =
        { county := c, harris := none, trump := none,
          kamala_ratio := none } := by
      simpa using hin
    subst hrow'
    right
    refine ⟨rfl, rfl, rfl, ?_⟩
    intro m hm hg hcand
    have hgmem : c.GEOID ∈ pivotGeoids merged :=
      (mem_pivotGeoids_iff merged c.GEOID).mpr ⟨m, hm, hg, hcand⟩
    rw [← pivotFor_map_geoid merged] at hgmem
    obtain ⟨p0, hp0, hp0g⟩ := List.mem_map.mp hgmem
    have hne := List.filter_eq_nil_iff.mp hflt _ hp0
    exact hne (by simp [hp0g])
  | cons q qs =>
    rw [hflt] at hin
    obtain ⟨p, hp, hrow'⟩ := List.mem_map.mp hin
    have hpmem : p ∈ pivotFor merged := by
      have hpf : p ∈ (pivotFor merged).filter
          (fun p => decide (p.GEOID = c.GEOID)) := by
        rw [hflt]
        exact hp
      exact (List.mem_filter.mp hpf).1
    rw [pivotFor] at hpmem
    obtain ⟨g, hg, hpeq⟩ := List.mem_map.mp hpmem
    subst hrow'
    subst hpeq
    left
    obtain ⟨m0, hm0, hg0, hc0⟩ := (mem_pivotGeoids_iff merged g).mp hg
    have key : ∀ cn, m0.cand_nm = cn → 0 < candGeoidSum merged g cn := by
      intro cn hcn
      have hm0rel : m0 ∈ pivotRelevant merged := by
        rw [pivotRelevant]
        apply List.mem_filter.mpr
        refine ⟨hm0, ?_⟩
        rw [Bool.and_eq_true]
        exact ⟨decide_eq_true hc0, by rw [hg0]; rfl⟩
      have hm0f : m0 ∈ (pivotRelevant merged).filter
          (fun m => decide (m.GEOID = some g ∧ m.cand_nm = cn)) :=
        List.mem_filter.mpr ⟨hm0rel, decide_eq_true ⟨hg0, hcn⟩⟩
      have hle : m0.contb_receipt_amt ≤ candGeoidSum merged g cn := by
        apply List.single_le_sum
        · intro x hx
          obtain ⟨m', hm', hxeq⟩ := List.mem_map.mp hx
          exact le_of_lt (hxeq ▸ hsub m' (List.mem_filter.mp hm').1)
        · exact List.mem_map_of_mem _ hm0f
      have hm0pos := hmpos m0 hm0
      linarith
    have hH : 0 ≤ candGeoidSum merged g harrisName := hcellnn g harrisName
    have hT : 0 ≤ candGeoidSum merged g trumpName := hcellnn g trumpName
    have hsum : 0 < candGeoidSum merged g harrisName +
        candGeoidSum merged g trumpName := by
      have hc0' : m0.cand_nm = trumpName ∨ m0.cand_nm = harrisName := by
        simpa [twoCands] using hc0
      rcases hc0' with hcn | hcn
      · have := key trumpName hcn
        linarith
      · have := key harrisName hcn
        linarith
    refine ⟨candGeoidSum merged g harrisName,
      candGeoidSum merged g trumpName, rfl, rfl, hH, hT, hsum, ?_, ?_, ?_⟩
    · show some (shareRatio _ _) = _
      rw [shareRatio, if_neg (ne_of_gt hsum)]
    · intro ht0
      show some (shareRatio _ _) = _
      rw [shareRatio, if_neg (ne_of_gt hsum), ht0, add_zero, div_self]
      intro h0
      rw [h0, ht0] at hsum
      simp at hsum
    · intro hh0
      show some (shareRatio _ _) = _
      rw [shareRatio, if_neg (ne_of_gt hsum), hh0, zero_div]

/-- C1 (amended) witness: Harris and Trump donations in ZIP 75001 both
resolve to county 48113, both pivot columns exist, share mode succeeds,
and the theorem's guarantees hold for the resulting table. -/
theorem c1_share_ratio_witness :
    (∀ r ∈ rowsBothTX, 0 < r.contb_receipt_amt) ∧
      harrisName ∈ pivotCandCols mergedBothTX ∧
      trumpName ∈ pivotCandCols mergedBothTX ∧
      (choroplethShare countiesDallas mergedBothTX =
          Except.ok (choroplethShareRows countiesDallas mergedBothTX) ∧
        ∀ row ∈ choroplethShareRows countiesDallas mergedBothTX,
          (∃ h t, row.harris = some h ∧ row.trump = some t ∧ 0 ≤ h ∧
            0 ≤ t ∧ 0 < h + t ∧ row.kamala_ratio = some (h / (h + t)) ∧
            (t = 0 → row.kamala_ratio = some 1) ∧
            (h = 0 → row.kamala_ratio = some 0)) ∨
          (row.harris = none ∧ row.trump = none ∧ row.kamala_ratio = none ∧
            ∀ m ∈ mergedBothTX,
              m.GEOID = some row.county.GEOID → m.cand_nm ∉ twoCands)) :=
  ⟨by decide, by decide, by decide,
    c1_share_ratio rowsBothTX cwDallas countiesDallas (by decide)
      (by decide) (by decide)⟩

/-- C1 counterexample: with both designated candidates present (donations
in county 48113) share mode runs to completion, and county 01001 — which
has zero donations to both designated candidates — gets the missing value
NaN (`none`) as its `kamala_ratio`, not 0.5 as the claim states:
`fillna(0.5)` runs on the pivot before the left merge onto the geometry,
leaving counties absent from the pivot unfilled. -/
theorem c1_zero_pair_county_ratio_is_nan :
    choroplethShare countiesTwo mergedBothTX =
        Except.ok (choroplethShareRows countiesTwo mergedBothTX) ∧
      (choroplethShareRows countiesTwo mergedBothTX).length = 2 ∧
      (choroplethShareRows countiesTwo mergedBothTX).getLast? =
        some shareRowMissing ∧
      shareRowMissing.kamala_ratio = none ∧
      shareRowMissing.kamala_ratio ≠ some (1 / 2) :=
  ⟨rfl, rfl, rfl, rfl, by decide⟩

end Donations
